import Mathlib

/-!
Shallow embedding of the `server_dot` UDP position-synchronization server.

Bytes are modelled as `Nat` (with `% 256` where the source truncates to `u8`),
`f32` values by their IEEE-754 bit patterns (a `Nat` below `2 ^ 32`; the Rust
`to_be_bytes` / `from_be_bytes` pair acts on exactly these bit patterns),
Rust `String`s that are only compared for equality by their UTF-8 byte lists,
`Instant` by a `Nat` count of seconds, and the `HashMap` registry by an
association list.  Code that can panic (out-of-range slicing, `unwrap`) is
modelled with an explicit `panic` result constructor.
-/

namespace ServerDot

/-- `MessageType` from `src/packet/mod.rs`: the seven wire message codes. -/
inductive MessageType where
  | PositionUpdate
  | ChatMessage
  | Heartbeat
  | ConnectionInit
  | PlayerJoin
  | ConfirmPlayerMovement
  | PlayerLeft
deriving DecidableEq, Repr

/-- The discriminant value of each `MessageType` (`msg_type as u8`). -/
def MessageType.toByte : MessageType → Nat
  | .PositionUpdate => 0x01
  | .ChatMessage => 0x02
  | .Heartbeat => 0x03
  | .ConnectionInit => 0x04
  | .PlayerJoin => 0x05
  | .ConfirmPlayerMovement => 0x06
  | .PlayerLeft => 0x07

/-- `MessageType::from_byte` from `src/packet/mod.rs`. -/
def MessageType.from_byte (b : Nat) : Option MessageType :=
  if b = 0x01 then some .PositionUpdate
  else if b = 0x02 then some .ChatMessage
  else if b = 0x03 then some .Heartbeat
  else if b = 0x04 then some .ConnectionInit
  else if b = 0x05 then some .PlayerJoin
  else if b = 0x06 then some .ConfirmPlayerMovement
  else if b = 0x07 then some .PlayerLeft
  else none

/-- Result of running a fallible Rust function that may also panic:
`panic` models an actual Rust panic (out-of-range index, failed `unwrap`),
`fail` models an orderly `None` return, `ok` a successful value. -/
inductive DecodeResult (α : Type) where
  | panic : DecodeResult α
  | fail : DecodeResult α
  | ok : α → DecodeResult α
deriving DecidableEq, Repr

/-- `u32::to_be_bytes` on a `Nat` below `2 ^ 32` (as written by `put_u32`). -/
def u32ToBeBytes (n : Nat) : List Nat :=
  [n / 2 ^ 24 % 256, n / 2 ^ 16 % 256, n / 2 ^ 8 % 256, n % 256]

/-- `u32::from_be_bytes` on four byte values. -/
def u32FromBeBytes (b0 b1 b2 b3 : Nat) : Nat :=
  b0 * 2 ^ 24 + b1 * 2 ^ 16 + b2 * 2 ^ 8 + b3

/-- `Position` from `src/game_state/mod.rs`; each coordinate is the IEEE-754
bit pattern of the `f32` (so `to_be_bytes`/`from_be_bytes` are byte splits of
the pattern). -/
structure Position where
  x : Nat
  y : Nat
deriving DecidableEq, Repr

/-- `Position::serialize` from `src/game_state/mod.rs`: `x.to_be_bytes()`
followed by `y.to_be_bytes()`, straight big-endian. -/
def Position.serialize (p : Position) : List Nat :=
  u32ToBeBytes p.x ++ u32ToBeBytes p.y

/-- `Position::deserialize` from `src/game_state/mod.rs`: note that the source
feeds `from_be_bytes` the bytes in REVERSED order
(`[data[3], data[2], data[1], data[0]]` and `[data[7], ..., data[4]]`). -/
def Position.deserialize (data : List Nat) : Option Position :=
  if data.length < 8 then none
  else some
    { x := u32FromBeBytes (data.getD 3 0) (data.getD 2 0) (data.getD 1 0) (data.getD 0 0)
      y := u32FromBeBytes (data.getD 7 0) (data.getD 6 0) (data.getD 5 0) (data.getD 4 0) }

/-- `GamePacket` from `src/packet/mod.rs`. -/
structure GamePacket where
  msg_type : MessageType
  version : Nat
  client_id : List Nat
  seq_num : Nat
  payload : List Nat
deriving DecidableEq, Repr

/-- `GamePacket::new` from `src/packet/mod.rs`: fixes `version` to `1`. -/
def GamePacket.new (msg_type : MessageType) (seq_num : Nat) (payload : List Nat)
    (client_id : List Nat) : GamePacket :=
  { msg_type := msg_type, version := 1, client_id := client_id,
    seq_num := seq_num, payload := payload }

/-- `GamePacket::serialize` from `src/packet/mod.rs`: type byte, version byte,
the raw `client_id` bytes, the sequence number big-endian, then the payload. -/
def GamePacket.serialize (p : GamePacket) : List Nat :=
  [p.msg_type.toByte, p.version % 256] ++ p.client_id ++ u32ToBeBytes p.seq_num ++ p.payload

/-- `GamePacket::deserialize` from `src/packet/mod.rs`.  The source guards only
`data.len() < 6`, then slices `&data[2..20]` (panics when the length is below
20), indexes `data[20] ..= data[23]` and slices `data[24..]` (both panic when
the length is below 24). -/
def GamePacket.deserialize (data : List Nat) : DecodeResult GamePacket :=
  if data.length < 6 then .fail
  else
    match MessageType.from_byte (data.getD 0 0) with
    | none => .fail
    | some t =>
      if data.length < 20 then .panic
      else if data.length < 24 then .panic
      else .ok
        { msg_type := t
          version := data.getD 1 0
          client_id := (data.drop 2).take 18
          seq_num := u32FromBeBytes (data.getD 20 0) (data.getD 21 0)
            (data.getD 22 0) (data.getD 23 0)
          payload := data.drop 24 }

/-- `PositionGamePacket` from `src/packet/mod.rs`. -/
structure PositionGamePacket where
  msg_type : MessageType
  version : Nat
  client_id : List Nat
  seq_num : Nat
  position : Position
deriving DecidableEq, Repr

/-- `PositionGamePacket::new` from `src/packet/mod.rs`: indexes
`payload[0] ..= payload[7]` with no length guard (panics when the payload is
shorter than 8 bytes) and feeds `from_be_bytes` the bytes in REVERSED order. -/
def PositionGamePacket.new (g : GamePacket) : DecodeResult PositionGamePacket :=
  if g.payload.length < 8 then .panic
  else .ok
    { msg_type := g.msg_type
      version := g.version
      client_id := g.client_id
      seq_num := g.seq_num
      position :=
        { x := u32FromBeBytes (g.payload.getD 3 0) (g.payload.getD 2 0)
            (g.payload.getD 1 0) (g.payload.getD 0 0)
          y := u32FromBeBytes (g.payload.getD 7 0) (g.payload.getD 6 0)
            (g.payload.getD 5 0) (g.payload.getD 4 0) } }

/-- Is `c` a UTF-8 continuation byte (`0x80 ..= 0xBF`)? -/
def contByte (c : Nat) : Bool := 0x80 ≤ c && c ≤ 0xBF

/-- Validity of a byte list as UTF-8, per RFC 3629; this is the test
`String::from_utf8` performs (`Ok` exactly on valid sequences). -/
def validUtf8 : List Nat → Bool
  | [] => true
  | b :: rest =>
    if b ≤ 0x7F then validUtf8 rest
    else if 0xC2 ≤ b && b ≤ 0xDF then
      match rest with
      | c1 :: r => contByte c1 && validUtf8 r
      | [] => false
    else if b = 0xE0 then
      match rest with
      | c1 :: c2 :: r => (0xA0 ≤ c1 && c1 ≤ 0xBF) && contByte c2 && validUtf8 r
      | _ => false
    else if (0xE1 ≤ b && b ≤ 0xEC) || b = 0xEE || b = 0xEF then
      match rest with
      | c1 :: c2 :: r => contByte c1 && contByte c2 && validUtf8 r
      | _ => false
    else if b = 0xED then
      match rest with
      | c1 :: c2 :: r => (0x80 ≤ c1 && c1 ≤ 0x9F) && contByte c2 && validUtf8 r
      | _ => false
    else if b = 0xF0 then
      match rest with
      | c1 :: c2 :: c3 :: r =>
        (0x90 ≤ c1 && c1 ≤ 0xBF) && contByte c2 && contByte c3 && validUtf8 r
      | _ => false
    else if 0xF1 ≤ b && b ≤ 0xF3 then
      match rest with
      | c1 :: c2 :: c3 :: r => contByte c1 && contByte c2 && contByte c3 && validUtf8 r
      | _ => false
    else if b = 0xF4 then
      match rest with
      | c1 :: c2 :: c3 :: r =>
        (0x80 ≤ c1 && c1 ≤ 0x8F) && contByte c2 && contByte c3 && validUtf8 r
      | _ => false
    else false

/-- `Player` from `src/game_state/mod.rs`; `id` is the UTF-8 byte list of the
18-character nanoid `String`, `heartbeat` an `Instant` in seconds. -/
structure Player where
  id : List Nat
  seq_num : Nat
  position : Position
  heartbeat : Nat
deriving DecidableEq, Repr

/-- `GameState` from `src/game_state/mod.rs`; the `HashMap<String, Player>`
is an association list with unique keys. -/
structure GameState where
  players : List (String × Player)
  width : Nat
  height : Nat
deriving DecidableEq, Repr

/-- `GameState::new`. -/
def GameState.new (width height : Nat) : GameState :=
  { players := [], width := width, height := height }

/-- `GameState::default`: `GameState::new(1920, 1080)`. -/
def GameState.mkDefault : GameState := GameState.new 1920 1080

/-- `HashMap::insert`: replaces the value at an existing key, otherwise adds
the binding. -/
def mapInsert : List (String × Player) → String → Player → List (String × Player)
  | [], a, p => [(a, p)]
  | (k, v) :: rest, a, p =>
    if k = a then (a, p) :: rest else (k, v) :: mapInsert rest a p

/-- `GameState::add_player`: `self.players.insert(address, player)`. -/
def GameState.add_player (st : GameState) (player : Player) (address : String) : GameState :=
  { st with players := mapInsert st.players address player }

/-- `GameState::update_player_position`: mutates the entry's position when the
key is present, no-op otherwise. -/
def GameState.update_player_position (st : GameState) (player_id : String)
    (new_position : Position) : GameState :=
  { st with players := st.players.map fun kv =>
      if kv.1 = player_id then (kv.1, { kv.2 with position := new_position }) else kv }

/-- `PlayerLeft` payload struct from `src/packet/ping.rs`. -/
structure PlayerLeft where
  player_id : List Nat
deriving DecidableEq, Repr

/-- `PlayerLeft::new`. -/
def PlayerLeft.new (player_id : List Nat) : PlayerLeft := ⟨player_id⟩

/-- `PlayerLeft::serialize`: just the id bytes. -/
def PlayerLeft.serialize (p : PlayerLeft) : List Nat := p.player_id

/-- `PlayerPosition` payload struct from `src/packet/position.rs`. -/
structure PlayerPosition where
  id : List Nat
  position : Position
deriving DecidableEq, Repr

/-- `PlayerPosition::new`. -/
def PlayerPosition.new (id : List Nat) (position : Position) : PlayerPosition :=
  ⟨id, position⟩

/-- `PlayerPosition::serialize`: id bytes then the 8-byte position. -/
def PlayerPosition.serialize (p : PlayerPosition) : List Nat :=
  p.id ++ p.position.serialize

/-- `ConnectionInitSync` payload struct from `src/packet/connection_init.rs`. -/
structure ConnectionInitSync where
  client_id : List Nat
  position : Position
deriving DecidableEq, Repr

/-- `ConnectionInitSync::new`. -/
def ConnectionInitSync.new (client_id : List Nat) (position : Position) :
    ConnectionInitSync := ⟨client_id, position⟩

/-- `ConnectionInitSync::serialize`: client id bytes then the 8-byte position. -/
def ConnectionInitSync.serialize (s : ConnectionInitSync) : List Nat :=
  s.client_id ++ s.position.serialize

/-- `ConnectionInitPacketSent` from `src/packet/connection_init.rs`. -/
structure ConnectionInitPacketSent where
  msg_type : MessageType
  version : Nat
  seq_num : Nat
  client_id : List Nat
  players : List Player
deriving DecidableEq, Repr

/-- `ConnectionInitPacketSent::new`. -/
def ConnectionInitPacketSent.new (seq_num : Nat) (client_id : List Nat)
    (players : List Player) : ConnectionInitPacketSent :=
  { msg_type := .ConnectionInit, version := 1, seq_num := seq_num,
    client_id := client_id, players := players }

/-- `ConnectionInitPacketSent::serialize`: concatenates `id ++ position` per
roster player and wraps the result via `GamePacket::new`. -/
def ConnectionInitPacketSent.serialize (s : ConnectionInitPacketSent) : GamePacket :=
  GamePacket.new s.msg_type s.seq_num
    ((s.players.map fun p => p.id ++ p.position.serialize).flatten) s.client_id

/-- One datagram handed to `socket.send_to(bytes, dest)`. -/
structure SendRec where
  dest : String
  bytes : List Nat
deriving DecidableEq, Repr

/-- `CLEANUP_INTERVAL_SECS` from `src/game_state/mod.rs`. -/
def CLEANUP_INTERVAL_SECS : Nat := 5

/-- `PLAYER_TIMEOUT_SECS` from `src/game_state/mod.rs`. -/
def PLAYER_TIMEOUT_SECS : Nat := 10

/-- The inner loop of `GameState::cleanup_inactive_players`: for one departed
player (registry key `addr`, payload its id) walk the live `self.players` and
send a PlayerLeft packet to every other entry.  `socket.send_to(..).await?`
propagates the first failure, so the loop stops there (the failed attempt is
recorded last) and reports `false`. -/
def notifyLoop (sendOk : String → List Nat → Bool) (player_left_payload : List Nat)
    (addr : String) : List (String × Player) → List SendRec × Bool
  | [] => ([], true)
  | (target_addr, p) :: rest =>
    if target_addr ≠ addr then
      let bytes := (GamePacket.new .PlayerLeft 0 player_left_payload p.id).serialize
      if sendOk target_addr bytes then
        let r := notifyLoop sendOk player_left_payload addr rest
        (⟨target_addr, bytes⟩ :: r.1, r.2)
      else ([⟨target_addr, bytes⟩], false)
    else notifyLoop sendOk player_left_payload addr rest

/-- The outer loop of `GameState::cleanup_inactive_players` over the snapshot
of inactive players; a failed send propagates out (`?`). -/
def notifyAll (sendOk : String → List Nat → Bool) (players : List (String × Player)) :
    List (String × Player) → List SendRec × Bool
  | [] => ([], true)
  | (addr, player) :: rest =>
    let r1 := notifyLoop sendOk (PlayerLeft.new player.id).serialize addr players
    if r1.2 then
      let r2 := notifyAll sendOk players rest
      (r1.1 ++ r2.1, r2.2)
    else (r1.1, false)

/-- `GameState::cleanup_inactive_players` from `src/game_state/mod.rs`.
`sendOk dest bytes` models the transport outcome of `socket.send_to`.
Returns the attempted sends, the resulting registry state and whether the
pass completed (`Ok(())`).  On a send failure the `?` returns early, so the
final `retain` never runs and the registry is left unchanged. -/
def GameState.cleanup_inactive_players (st : GameState) (now : Nat)
    (sendOk : String → List Nat → Bool) : List SendRec × GameState × Bool :=
  let inactive_players := st.players.filter fun kv =>
    PLAYER_TIMEOUT_SECS < now - kv.2.heartbeat
  let r := notifyAll sendOk st.players inactive_players
  if r.2 then
    (r.1, { st with players := st.players.filter fun kv =>
      now - kv.2.heartbeat ≤ PLAYER_TIMEOUT_SECS }, true)
  else (r.1, st, false)

/-- The loop of `HeartbeatManager::send_heartbeats` from `src/tasks/mod.rs`:
for each registry entry whose key parses as a socket address, send an
empty-payload Heartbeat packet (seq 0); `send_to(..).await?` propagates the
first failure, aborting the rest of the fan-out. -/
def sendHeartbeatsLoop (sendOk : String → List Nat → Bool) (parses : String → Bool) :
    List (String × Player) → List SendRec × Bool
  | [] => ([], true)
  | (addr, player) :: rest =>
    let data := (GamePacket.new .Heartbeat 0 [] player.id).serialize
    if parses addr then
      if sendOk addr data then
        let r := sendHeartbeatsLoop sendOk parses rest
        (⟨addr, data⟩ :: r.1, r.2)
      else ([⟨addr, data⟩], false)
    else sendHeartbeatsLoop sendOk parses rest

/-- `HeartbeatManager::send_heartbeats` from `src/tasks/mod.rs`.  `parses`
models `addr.parse::<SocketAddr>().is_ok()`. -/
def HeartbeatManager.send_heartbeats (st : GameState) (parses : String → Bool)
    (sendOk : String → List Nat → Bool) : List SendRec × Bool :=
  sendHeartbeatsLoop sendOk parses st.players

/-- `GameServer::handle_heartbeat` from `src/server/mod.rs`: refresh the
heartbeat of the entry keyed by the source address, no-op (log) otherwise. -/
def GameServer.handle_heartbeat (st : GameState) (addr : String) (now : Nat) : GameState :=
  { st with players := st.players.map fun kv =>
      if kv.1 = addr then (kv.1, { kv.2 with heartbeat := now }) else kv }

/-- The fan-out loop of `GameServer::handle_position_update`: each iteration
evaluates `String::from_utf8(package.client_id.clone()).unwrap()` (panics on
invalid UTF-8) and sends to every player whose id differs from the claimed
client id, with the recipient's id in the packet header and the recipient's
registry key as destination; send errors are logged and do not stop the loop. -/
def broadcastPositionLoop (client_id : List Nat) (position_payload : List Nat)
    (seq_num : Nat) : List (String × Player) → DecodeResult (List SendRec)
  | [] => .ok []
  | (player_id, player) :: rest =>
    if validUtf8 client_id then
      if player.id ≠ client_id then
        let bytes :=
          (GamePacket.new .PositionUpdate seq_num position_payload player.id).serialize
        match broadcastPositionLoop client_id position_payload seq_num rest with
        | .ok sends => .ok (⟨player_id, bytes⟩ :: sends)
        | r => r
      else broadcastPositionLoop client_id position_payload seq_num rest
    else .panic

/-- `GameServer::handle_position_update` from `src/server/mod.rs`: decode the
position payload via `PositionGamePacket::new` (panics on payloads shorter
than 8 bytes), update the entry keyed by the transport source address, then
fan the position out to every player whose id differs from the claimed
client id. -/
def GameServer.handle_position_update (package : GamePacket) (addr : String)
    (st : GameState) : DecodeResult (GameState × List SendRec) :=
  match PositionGamePacket.new package with
  | .panic => .panic
  | .fail => .fail
  | .ok p =>
    let st2 := st.update_player_position addr p.position
    let position_payload := (PlayerPosition.new p.client_id p.position).serialize
    match broadcastPositionLoop p.client_id position_payload p.seq_num st2.players with
    | .ok sends => .ok (st2, sends)
    | .panic => .panic
    | .fail => .fail

/-- `GameServer::handle_connection_init` from `src/server/mod.rs`.  `newId` is
the freshly generated `nanoid!(18)` (18 ASCII bytes), `now` the current
`Instant`.  The new player spawns at `Position { x: 600.0, y: 700.0 }`
(f32 bit patterns `0x44160000` and `0x442F0000`).  The roster reply goes to
the sender; then each OTHER registry entry `(send_addr, player)` receives a
PlayerJoin packet whose payload is `ConnectionInitSync::new(player_id,
player.position)` — the new player's id paired with the RECIPIENT's own
position, exactly as the source builds it.  Send errors are logged and do not
stop the loop. -/
def GameServer.handle_connection_init (package : GamePacket) (addr : String)
    (newId : List Nat) (now : Nat) (st : GameState) : GameState × List SendRec :=
  let player : Player :=
    { id := newId, seq_num := package.seq_num,
      position := { x := 0x44160000, y := 0x442F0000 }, heartbeat := now }
  let player_id := player.id
  let st2 := st.add_player player addr
  let roster := (st2.players.filter fun kv => kv.2.id ≠ player_id).map Prod.snd
  let reply :=
    ((ConnectionInitPacketSent.new package.seq_num player_id roster).serialize).serialize
  let joins := st2.players.filterMap fun kv =>
    if player_id ≠ kv.2.id then
      some (⟨kv.1, (GamePacket.new .PlayerJoin package.seq_num
        ((ConnectionInitSync.new player_id kv.2.position).serialize) kv.2.id).serialize⟩ : SendRec)
    else none
  (st2, ⟨addr, reply⟩ :: joins)

/-- One iteration of the receive loop spawned by
`GameServer::spawn_handle_receiving_messages_task` in `src/server/mod.rs`:
deserialize the datagram (a `None` is logged and skipped), then dispatch on
the message type; unhandled types are logged and skipped.  A `panic` result
means the spawned task dies and the receive loop stops. -/
def GameServer.processDatagram (data : List Nat) (addr : String) (now : Nat)
    (newId : List Nat) (st : GameState) : DecodeResult (GameState × List SendRec) :=
  match GamePacket.deserialize data with
  | .panic => .panic
  | .fail => .ok (st, [])
  | .ok package =>
    match package.msg_type with
    | .PositionUpdate => GameServer.handle_position_update package addr st
    | .Heartbeat => .ok (GameServer.handle_heartbeat st addr now, [])
    | .ConnectionInit => .ok (GameServer.handle_connection_init package addr newId now st)
    | _ => .ok (st, [])

/-- Process a sequence of ConnectionInit requests `(source address, generated
nanoid, inbound sequence number)` through `GameServer::handle_connection_init`,
tracking only the registry state. -/
def processInits (reqs : List (String × List Nat × Nat)) (now : Nat)
    (st : GameState) : GameState :=
  reqs.foldl (fun s r =>
    (GameServer.handle_connection_init
      { msg_type := .ConnectionInit, version := 1, client_id := List.replicate 18 0,
        seq_num := r.2.2, payload := [] } r.1 r.2.1 now s).1) st

/-- `MessageType::from_byte` inverts the discriminant of every variant. -/
theorem MessageType.from_byte_toByte (t : MessageType) :
    MessageType.from_byte t.toByte = some t := by cases t <;> rfl

/-- C1: the position codec does NOT round-trip and the decoder is not straight
big-endian.  At `x = 1.0f32` (bit pattern `0x3F800000`), `y = 2.0f32`
(`0x40000000`), `Position::serialize` emits the straight big-endian bytes but
`Position::deserialize` re-reverses each 4-byte group, returning the bit
patterns `0x0000803F` (the subnormal ≈ 4.6e-41, not `1.0`) and `0x00000040`
(≈ 9.0e-44, not `2.0`); both are non-NaN values distinct from the originals. -/
theorem position_codec_roundtrip_fails :
    Position.serialize ⟨0x3F800000, 0x40000000⟩ =
      [0x3F, 0x80, 0x00, 0x00, 0x40, 0x00, 0x00, 0x00] ∧
    Position.deserialize (Position.serialize ⟨0x3F800000, 0x40000000⟩) =
      some ⟨0x0000803F, 0x00000040⟩ ∧
    Position.deserialize (Position.serialize ⟨0x3F800000, 0x40000000⟩) ≠
      some ⟨0x3F800000, 0x40000000⟩ := by decide

/-- C2: `GamePacket::deserialize` guards only `len < 6`, not `len < 24`; on a
6-byte (or 23-byte) input whose first byte is a recognized code it panics
(out-of-range slice `&data[2..20]` / `data[20..=23]`) instead of returning a
TruncatedHeader-style failure.  Inputs shorter than 6 bytes, and inputs with
an unrecognized first byte, do fail cleanly. -/
theorem deserialize_short_input_panics :
    GamePacket.deserialize [0x01, 0, 0, 0, 0, 0] = .panic ∧
    GamePacket.deserialize (0x01 :: List.replicate 22 0) = .panic ∧
    GamePacket.deserialize [0x01, 0, 0, 0, 0] = .fail ∧
    GamePacket.deserialize (0x08 :: List.replicate 23 0) = .fail := by decide

/-- C3: the receive loop CAN panic on an inbound PositionUpdate: a well-formed
24-byte datagram of type `0x01` with an empty payload reaches
`PositionGamePacket::new`, which indexes `payload[3]` with no length guard,
panicking the spawned receive task. -/
theorem receive_loop_panics_on_short_position_payload :
    GameServer.processDatagram (0x01 :: List.replicate 23 0) "127.0.0.1:9000" 0
      (List.replicate 18 0x61) GameState.mkDefault = .panic := by decide

/-- C5: the PlayerJoin notice sent to an existing player `r` carries the new
player's id but `r`'s OWN position, not the new player's.  Concretely: with
one registered player at `(2.0, 3.0)` (bit patterns `0x40000000`,
`0x40400000`), a ConnectionInit from a second address produces a join notice
to the first player whose payload pairs the new id with `(2.0, 3.0)` — and
not with the new player's spawn position `(600.0, 700.0)` (bit patterns
`0x44160000`, `0x442F0000`). -/
theorem player_join_payload_uses_recipient_position :
    let r : Player := ⟨List.replicate 18 0x61, 0, ⟨0x40000000, 0x40400000⟩, 0⟩
    let st0 : GameState := ⟨[("10.0.0.1:1111", r)], 1920, 1080⟩
    let pkt : GamePacket := ⟨.ConnectionInit, 1, List.replicate 18 0, 7, []⟩
    let res := GameServer.handle_connection_init pkt "10.0.0.2:2222"
      (List.replicate 18 0x62) 0 st0
    (res.2.map SendRec.bytes).getD 1 [] =
      (GamePacket.new .PlayerJoin 7
        ((ConnectionInitSync.new (List.replicate 18 0x62) ⟨0x40000000, 0x40400000⟩).serialize)
        (List.replicate 18 0x61)).serialize ∧
    (res.2.map SendRec.bytes).getD 1 [] ≠
      (GamePacket.new .PlayerJoin 7
        ((ConnectionInitSync.new (List.replicate 18 0x62) ⟨0x44160000, 0x442F0000⟩).serialize)
        (List.replicate 18 0x61)).serialize := by decide

/-- C4 counterexample: with one expired player at key `a:1` and two active
players at `b:2` and `c:3`, and a transport that fails exactly on sends to
`b:2`, the Reaper pass aborts at the first failed send: the pass reports
failure, the registry is left unchanged (the expired `a:1` entry is NOT
removed), only one send is attempted, and `c:3` is never probed — refuting
the claim that remaining recipients are still processed and expired entries
still removed. -/
theorem reaper_send_failure_counterexample :
    let p1 : Player := ⟨List.replicate 18 0x61, 0, ⟨0, 0⟩, 0⟩
    let p2 : Player := ⟨List.replicate 18 0x62, 0, ⟨0, 0⟩, 95⟩
    let p3 : Player := ⟨List.replicate 18 0x63, 0, ⟨0, 0⟩, 95⟩
    let st : GameState := ⟨[("a:1", p1), ("b:2", p2), ("c:3", p3)], 1920, 1080⟩
    let r := st.cleanup_inactive_players 100 (fun d _ => d != "b:2")
    r.2.2 = false ∧ r.2.1 = st ∧ r.1.length = 1 ∧
    ("a:1", p1) ∈ r.2.1.players ∧ ∀ s ∈ r.1, s.dest ≠ "c:3" := by decide

/-- C9 counterexample: two ConnectionInit requests arriving from the SAME
source address overwrite one registry slot (`HashMap::insert` keyed by
address), leaving one entry, not two — refuting the claim for arbitrary
request sequences. -/
theorem duplicate_address_joins_counterexample :
    (processInits [("1.1.1.1:1", List.replicate 18 0x61, 0),
        ("1.1.1.1:1", List.replicate 18 0x62, 0)] 0 GameState.mkDefault).players.length = 1 ∧
    ¬ (processInits [("1.1.1.1:1", List.replicate 18 0x61, 0),
        ("1.1.1.1:1", List.replicate 18 0x62, 0)] 0 GameState.mkDefault).players.length = 2 := by
  decide

/-- C6: packet header round-trip.  For every packet whose message type is one
of the seven codes (enforced by the `MessageType` type), whose client id is
exactly 18 bytes, and whose version and sequence number fit their `u8`/`u32`
wire fields, `GamePacket::deserialize` applied to `GamePacket::serialize`
succeeds and returns the packet unchanged, field by field. -/
theorem game_packet_roundtrip (p : GamePacket) (h1 : p.client_id.length = 18)
    (h2 : p.version < 256) (h3 : p.seq_num < 2 ^ 32) :
    GamePacket.deserialize p.serialize = .ok p := by
  obtain ⟨t, v, cid, n, pl⟩ := p
  simp only at h1 h2 h3
  have hser : GamePacket.serialize ⟨t, v, cid, n, pl⟩ =
      t.toByte :: v % 256 :: (cid ++ (u32ToBeBytes n ++ pl)) := by
    simp [GamePacket.serialize]
  have hlen : (t.toByte :: v % 256 :: (cid ++ (u32ToBeBytes n ++ pl))).length
      = 24 + pl.length := by
    simp [u32ToBeBytes, h1]; omega
  rw [hser]
  unfold GamePacket.deserialize
  rw [if_neg (by omega)]
  simp only [List.getD_cons_zero, MessageType.from_byte_toByte]
  rw [if_neg (by omega), if_neg (by omega)]
  have hcid : ((t.toByte :: v % 256 :: (cid ++ (u32ToBeBytes n ++ pl))).drop 2).take 18 = cid := by
    simp only [List.drop_succ_cons, List.drop_zero]
    rw [← h1, List.take_left]
  have hpl : (t.toByte :: v % 256 :: (cid ++ (u32ToBeBytes n ++ pl))).drop 24 = pl := by
    simp only [List.drop_succ_cons]
    rw [show (22 : Nat) = cid.length + 4 by omega, List.drop_append]
    rfl
  simp only [DecodeResult.ok.injEq, GamePacket.mk.injEq]
  refine ⟨trivial, ?_, hcid, ?_, hpl⟩
  · simp only [List.getD_cons_succ, List.getD_cons_zero]
    omega
  · simp only [List.getD_cons_succ]
    rw [List.getD_append_right cid _ 0 18 (by omega), List.getD_append_right cid _ 0 19 (by omega),
      List.getD_append_right cid _ 0 20 (by omega), List.getD_append_right cid _ 0 21 (by omega),
      h1, show (18 : Nat) - 18 = 0 from rfl, show (19 : Nat) - 18 = 1 from rfl,
      show (20 : Nat) - 18 = 2 from rfl, show (21 : Nat) - 18 = 3 from rfl]
    simp only [u32ToBeBytes, u32FromBeBytes, List.cons_append, List.nil_append,
      List.getD_cons_succ, List.getD_cons_zero]
    omega

/-- C6 witness: the round-trip theorem applied to a concrete Heartbeat packet
with an 18-byte client id, version 1, sequence number 77 and a 3-byte payload. -/
theorem game_packet_roundtrip_witness :
    GamePacket.deserialize
      (GamePacket.serialize ⟨.Heartbeat, 1, List.replicate 18 0x61, 77, [1, 2, 3]⟩) =
      .ok ⟨.Heartbeat, 1, List.replicate 18 0x61, 77, [1, 2, 3]⟩ :=
  game_packet_roundtrip ⟨.Heartbeat, 1, List.replicate 18 0x61, 77, [1, 2, 3]⟩
    (by decide) (by decide) (by decide)

/-- A send trace that stops at its first failure: every attempted send but
the last succeeded, and the last one failed. -/
def FailShape (sendOk : String → List Nat → Bool) (tr : List SendRec) : Prop :=
  ∃ pre s, tr = pre ++ [s] ∧ sendOk s.dest s.bytes = false ∧
    ∀ t ∈ pre, sendOk t.dest t.bytes = true

theorem notifyLoop_spec (sendOk : String → List Nat → Bool) (payload : List Nat)
    (addr : String) (l : List (String × Player)) :
    ((notifyLoop sendOk payload addr l).2 = true →
      ∀ t ∈ (notifyLoop sendOk payload addr l).1, sendOk t.dest t.bytes = true) ∧
    ((notifyLoop sendOk payload addr l).2 = false →
      FailShape sendOk (notifyLoop sendOk payload addr l).1) := by
  induction l with
  | nil => simp [notifyLoop]
  | cons hd tl ih =>
    obtain ⟨ta, p⟩ := hd
    by_cases hta : ta ≠ addr
    · by_cases hs : sendOk ta ((GamePacket.new .PlayerLeft 0 payload p.id).serialize) = true
      · simp only [notifyLoop, if_pos hta, if_pos hs]
        refine ⟨?_, ?_⟩
        · intro h2 t ht
          rcases List.mem_cons.mp ht with rfl | ht
          · exact hs
          · exact ih.1 h2 t ht
        · intro h2
          obtain ⟨pre, s, hpre, hsf, hall⟩ := ih.2 h2
          refine ⟨⟨ta, (GamePacket.new .PlayerLeft 0 payload p.id).serialize⟩ :: pre, s,
            by rw [hpre]; rfl, hsf, ?_⟩
          intro t ht
          rcases List.mem_cons.mp ht with rfl | ht
          · exact hs
          · exact hall t ht
      · simp only [notifyLoop, if_pos hta, if_neg hs]
        refine ⟨by intro h2; simp at h2, ?_⟩
        intro _
        exact ⟨[], ⟨ta, (GamePacket.new .PlayerLeft 0 payload p.id).serialize⟩,
          rfl, by simpa using hs, by simp⟩
    · simp only [notifyLoop, if_neg hta]
      exact ih

theorem notifyAll_spec (sendOk : String → List Nat → Bool)
    (players : List (String × Player)) (l : List (String × Player)) :
    ((notifyAll sendOk players l).2 = true →
      ∀ t ∈ (notifyAll sendOk players l).1, sendOk t.dest t.bytes = true) ∧
    ((notifyAll sendOk players l).2 = false →
      FailShape sendOk (notifyAll sendOk players l).1) := by
  induction l with
  | nil => simp [notifyAll]
  | cons hd tl ih =>
    obtain ⟨addr, player⟩ := hd
    by_cases h1 : (notifyLoop sendOk (PlayerLeft.new player.id).serialize addr players).2 = true
    · simp only [notifyAll, if_pos h1]
      refine ⟨?_, ?_⟩
      · intro h2 t ht
        rcases List.mem_append.mp ht with ht | ht
        · exact (notifyLoop_spec sendOk _ addr players).1 h1 t ht
        · exact ih.1 h2 t ht
      · intro h2
        obtain ⟨pre, s, hpre, hsf, hall⟩ := ih.2 h2
        refine ⟨(notifyLoop sendOk (PlayerLeft.new player.id).serialize addr players).1 ++ pre,
          s, by rw [hpre, List.append_assoc], hsf, ?_⟩
        intro t ht
        rcases List.mem_append.mp ht with ht | ht
        · exact (notifyLoop_spec sendOk _ addr players).1 h1 t ht
        · exact hall t ht
    · simp only [notifyAll, if_neg h1]
      refine ⟨by intro h2; simp at h2, ?_⟩
      intro _
      exact (notifyLoop_spec sendOk _ addr players).2 (by simpa using h1)

theorem sendHeartbeatsLoop_spec (sendOk : String → List Nat → Bool)
    (parses : String → Bool) (l : List (String × Player)) :
    ((sendHeartbeatsLoop sendOk parses l).2 = true →
      ∀ t ∈ (sendHeartbeatsLoop sendOk parses l).1, sendOk t.dest t.bytes = true) ∧
    ((sendHeartbeatsLoop sendOk parses l).2 = false →
      FailShape sendOk (sendHeartbeatsLoop sendOk parses l).1) := by
  induction l with
  | nil => simp [sendHeartbeatsLoop]
  | cons hd tl ih =>
    obtain ⟨addr, player⟩ := hd
    by_cases hp : parses addr = true
    · by_cases hs : sendOk addr ((GamePacket.new .Heartbeat 0 [] player.id).serialize) = true
      · simp only [sendHeartbeatsLoop, if_pos hp, if_pos hs]
        refine ⟨?_, ?_⟩
        · intro h2 t ht
          rcases List.mem_cons.mp ht with rfl | ht
          · exact hs
          · exact ih.1 h2 t ht
        · intro h2
          obtain ⟨pre, s, hpre, hsf, hall⟩ := ih.2 h2
          refine ⟨⟨addr, (GamePacket.new .Heartbeat 0 [] player.id).serialize⟩ :: pre, s,
            by rw [hpre]; rfl, hsf, ?_⟩
          intro t ht
          rcases List.mem_cons.mp ht with rfl | ht
          · exact hs
          · exact hall t ht
      · simp only [sendHeartbeatsLoop, if_pos hp, if_neg hs]
        refine ⟨by intro h2; simp at h2, ?_⟩
        intro _
        exact ⟨[], ⟨addr, (GamePacket.new .Heartbeat 0 [] player.id).serialize⟩,
          rfl, by simpa using hs, by simp⟩
    · simp only [sendHeartbeatsLoop, if_neg hp]
      exact ih

/-- C4 amended: a send failure during the Reaper's PlayerLeft broadcast or the
Liveness Prober's heartbeat fan-out propagates out of that pass via `?`: the
attempted trace is a run of successful sends ending at the first failure
(recipients after it are never attempted), and in the Reaper's case the
early return skips the final `retain`, so NO expired entries are removed in
that pass (only the surrounding periodic task logs the error once and keeps
ticking). -/
theorem send_failure_aborts_pass (st : GameState) (now : Nat)
    (sendOk : String → List Nat → Bool) (parses : String → Bool)
    (hc : (st.cleanup_inactive_players now sendOk).2.2 = false)
    (hh : (HeartbeatManager.send_heartbeats st parses sendOk).2 = false) :
    (st.cleanup_inactive_players now sendOk).2.1 = st ∧
    FailShape sendOk (st.cleanup_inactive_players now sendOk).1 ∧
    FailShape sendOk (HeartbeatManager.send_heartbeats st parses sendOk).1 := by
  by_cases hr : (notifyAll sendOk st.players (st.players.filter fun kv =>
      decide (PLAYER_TIMEOUT_SECS < now - kv.2.heartbeat))).2 = true
  · exfalso
    unfold GameState.cleanup_inactive_players at hc
    simp only [if_pos hr] at hc
    exact absurd hc (by simp)
  · have hfalse : (notifyAll sendOk st.players (st.players.filter fun kv =>
        decide (PLAYER_TIMEOUT_SECS < now - kv.2.heartbeat))).2 = false := by
      simpa using hr
    refine ⟨?_, ?_, ?_⟩
    · unfold GameState.cleanup_inactive_players
      simp only [if_neg hr]
    · unfold GameState.cleanup_inactive_players
      simp only [if_neg hr]
      exact (notifyAll_spec sendOk st.players _).2 hfalse
    · exact (sendHeartbeatsLoop_spec sendOk parses st.players).2 hh

/-- C4 amended witness: at the concrete three-player state where the send to
`b:2` fails, both the Reaper pass and the heartbeat fan-out satisfy the
amended behavior; in particular the Reaper pass leaves the registry
unchanged. -/
theorem send_failure_aborts_pass_witness :
    (GameState.cleanup_inactive_players
      ⟨[("a:1", ⟨List.replicate 18 0x61, 0, ⟨0, 0⟩, 0⟩),
        ("b:2", ⟨List.replicate 18 0x62, 0, ⟨0, 0⟩, 95⟩),
        ("c:3", ⟨List.replicate 18 0x63, 0, ⟨0, 0⟩, 95⟩)], 1920, 1080⟩ 100
      (fun d _ => d != "b:2")).2.1 =
    ⟨[("a:1", ⟨List.replicate 18 0x61, 0, ⟨0, 0⟩, 0⟩),
      ("b:2", ⟨List.replicate 18 0x62, 0, ⟨0, 0⟩, 95⟩),
      ("c:3", ⟨List.replicate 18 0x63, 0, ⟨0, 0⟩, 95⟩)], 1920, 1080⟩ :=
  (send_failure_aborts_pass _ 100 (fun d _ => d != "b:2") (fun _ => true)
    (by decide) (by decide)).1

/-- Inserting an absent key into the registry map appends the binding. -/
theorem mapInsert_of_notMem (l : List (String × Player)) (a : String) (p : Player)
    (h : a ∉ l.map Prod.fst) : mapInsert l a p = l ++ [(a, p)] := by
  induction l with
  | nil => rfl
  | cons hd tl ih =>
    obtain ⟨k, v⟩ := hd
    simp only [List.map_cons, List.mem_cons] at h
    push_neg at h
    rw [mapInsert, if_neg (fun he => h.1 he.symm), ih h.2]
    rfl

/-- The registry state produced by `GameServer::handle_connection_init` is
just `add_player` of the freshly built `Player`. -/
theorem handle_connection_init_state (package : GamePacket) (addr : String)
    (newId : List Nat) (now : Nat) (st : GameState) :
    (GameServer.handle_connection_init package addr newId now st).1 =
      st.add_player ⟨newId, package.seq_num, ⟨0x44160000, 0x442F0000⟩, now⟩ addr := rfl

/-- Processing ConnectionInit requests whose source addresses are fresh and
pairwise distinct appends one registry entry per request, in order. -/
theorem processInits_players (now : Nat) :
    ∀ (reqs : List (String × List Nat × Nat)) (st : GameState),
    (∀ r ∈ reqs, r.1 ∉ st.players.map Prod.fst) →
    (reqs.map Prod.fst).Nodup →
    (processInits reqs now st).players =
      st.players ++ reqs.map fun r =>
        (r.1, (⟨r.2.1, r.2.2, ⟨0x44160000, 0x442F0000⟩, now⟩ : Player)) := by
  intro reqs
  induction reqs with
  | nil => intro st _ _; simp [processInits]
  | cons r rest ih =>
    intro st h hnod
    have hstep : processInits (r :: rest) now st =
        processInits rest now ((GameServer.handle_connection_init
          ⟨.ConnectionInit, 1, List.replicate 18 0, r.2.2, []⟩ r.1 r.2.1 now st).1) := rfl
    have hkey : r.1 ∉ st.players.map Prod.fst := h r (List.mem_cons_self r rest)
    have hst2 : (GameServer.handle_connection_init
        ⟨.ConnectionInit, 1, List.replicate 18 0, r.2.2, []⟩ r.1 r.2.1 now st).1.players =
        st.players ++ [(r.1, (⟨r.2.1, r.2.2, ⟨0x44160000, 0x442F0000⟩, now⟩ : Player))] := by
      rw [handle_connection_init_state]
      exact mapInsert_of_notMem st.players r.1 _ hkey
    rw [hstep, ih _ ?fresh ?nod]
    case fresh =>
      intro r' hr'
      rw [hst2]
      simp only [List.map_append, List.mem_append, List.map_cons, List.map_nil,
        List.mem_singleton, List.mem_cons]
      rintro (hin | hin)
      · exact h r' (List.mem_cons_of_mem r hr') hin
      · rcases hin with hin | hin
        · have : r.1 ∉ rest.map Prod.fst := (List.nodup_cons.mp hnod).1
          exact this (hin ▸ List.mem_map_of_mem Prod.fst hr')
        · cases hin
    case nod => exact (List.nodup_cons.mp hnod).2
    rw [hst2, List.append_assoc]
    rfl

/-- C9 amended: starting from the empty registry, a sequence of `n`
ConnectionInit requests arriving from pairwise-distinct source addresses and
assigned pairwise-distinct generated ids leaves the registry with exactly
`n` entries whose Player ids are pairwise distinct.  (Distinct source
addresses are required — a repeated address overwrites its slot — and id
distinctness comes from the nanoid generation, which the registry itself
does not enforce.) -/
theorem distinct_joins_registry (reqs : List (String × List Nat × Nat)) (now : Nat)
    (haddr : (reqs.map Prod.fst).Nodup)
    (hids : (reqs.map fun r => r.2.1).Nodup) :
    (processInits reqs now GameState.mkDefault).players.length = reqs.length ∧
    ((processInits reqs now GameState.mkDefault).players.map fun kv => kv.2.id).Nodup := by
  have hp := processInits_players now reqs GameState.mkDefault
    (by simp [GameState.mkDefault, GameState.new]) haddr
  rw [hp]
  constructor
  · simp [GameState.mkDefault, GameState.new]
  · simp only [GameState.mkDefault, GameState.new, List.nil_append, List.map_map]
    have hcomp : ((fun kv : String × Player => kv.2.id) ∘ fun r : String × List Nat × Nat =>
        (r.1, (⟨r.2.1, r.2.2, ⟨0x44160000, 0x442F0000⟩, now⟩ : Player))) =
        fun r => r.2.1 := rfl
    rw [hcomp]
    exact hids

/-- C9 amended witness: two ConnectionInit requests from distinct addresses
with distinct generated ids leave exactly two registry entries with distinct
ids. -/
theorem distinct_joins_registry_witness :
    (processInits [("1.1.1.1:1", List.replicate 18 0x61, 0),
        ("2.2.2.2:2", List.replicate 18 0x62, 5)] 0 GameState.mkDefault).players.length = 2 ∧
    ((processInits [("1.1.1.1:1", List.replicate 18 0x61, 0),
        ("2.2.2.2:2", List.replicate 18 0x62, 5)] 0
        GameState.mkDefault).players.map fun kv => kv.2.id).Nodup :=
  distinct_joins_registry
    [("1.1.1.1:1", List.replicate 18 0x61, 0), ("2.2.2.2:2", List.replicate 18 0x62, 5)]
    0 (by decide) (by decide)

/-- Byte 1 (the version byte) of any packet built via `GamePacket::new` and
serialized is `1`. -/
theorem getD1_serialize_new (t : MessageType) (s : Nat) (pl cid : List Nat) :
    ((GamePacket.new t s pl cid).serialize).getD 1 0 = 1 := rfl

theorem notifyLoop_bytes_version (sendOk : String → List Nat → Bool)
    (payload : List Nat) (addr : String) (l : List (String × Player)) :
    ∀ t ∈ (notifyLoop sendOk payload addr l).1, t.bytes.getD 1 0 = 1 := by
  induction l with
  | nil => simp [notifyLoop]
  | cons hd tl ih =>
    obtain ⟨ta, p⟩ := hd
    by_cases hta : ta ≠ addr
    · by_cases hs : sendOk ta ((GamePacket.new .PlayerLeft 0 payload p.id).serialize) = true
      · simp only [notifyLoop, if_pos hta, if_pos hs]
        intro t ht
        rcases List.mem_cons.mp ht with rfl | ht
        · exact getD1_serialize_new _ _ _ _
        · exact ih t ht
      · simp only [notifyLoop, if_pos hta, if_neg hs]
        intro t ht
        rcases List.mem_cons.mp ht with rfl | ht
        · exact getD1_serialize_new _ _ _ _
        · cases ht
    · simp only [notifyLoop, if_neg hta]
      exact ih

theorem notifyAll_bytes_version (sendOk : String → List Nat → Bool)
    (players : List (String × Player)) (l : List (String × Player)) :
    ∀ t ∈ (notifyAll sendOk players l).1, t.bytes.getD 1 0 = 1 := by
  induction l with
  | nil => simp [notifyAll]
  | cons hd tl ih =>
    obtain ⟨addr, player⟩ := hd
    by_cases h1 : (notifyLoop sendOk (PlayerLeft.new player.id).serialize addr players).2 = true
    · simp only [notifyAll, if_pos h1]
      intro t ht
      rcases List.mem_append.mp ht with ht | ht
      · exact notifyLoop_bytes_version sendOk _ addr players t ht
      · exact ih t ht
    · simp only [notifyAll, if_neg h1]
      exact notifyLoop_bytes_version sendOk _ addr players

theorem sendHeartbeatsLoop_bytes_version (sendOk : String → List Nat → Bool)
    (parses : String → Bool) (l : List (String × Player)) :
    ∀ t ∈ (sendHeartbeatsLoop sendOk parses l).1, t.bytes.getD 1 0 = 1 := by
  induction l with
  | nil => simp [sendHeartbeatsLoop]
  | cons hd tl ih =>
    obtain ⟨addr, player⟩ := hd
    by_cases hp : parses addr = true
    · by_cases hs : sendOk addr ((GamePacket.new .Heartbeat 0 [] player.id).serialize) = true
      · simp only [sendHeartbeatsLoop, if_pos hp, if_pos hs]
        intro t ht
        rcases List.mem_cons.mp ht with rfl | ht
        · exact getD1_serialize_new _ _ _ _
        · exact ih t ht
      · simp only [sendHeartbeatsLoop, if_pos hp, if_neg hs]
        intro t ht
        rcases List.mem_cons.mp ht with rfl | ht
        · exact getD1_serialize_new _ _ _ _
        · cases ht
    · simp only [sendHeartbeatsLoop, if_neg hp]
      exact ih

theorem broadcastPositionLoop_bytes_version (cid payload : List Nat) (seq : Nat) :
    ∀ (l : List (String × Player)) (sends : List SendRec),
      broadcastPositionLoop cid payload seq l = .ok sends →
      ∀ t ∈ sends, t.bytes.getD 1 0 = 1 := by
  intro l
  induction l with
  | nil =>
    intro sends h
    simp only [broadcastPositionLoop, DecodeResult.ok.injEq] at h
    subst h
    simp
  | cons hd tl ih =>
    intro sends h
    obtain ⟨player_id, player⟩ := hd
    by_cases hu : validUtf8 cid = true
    · by_cases hid : player.id ≠ cid
      · simp only [broadcastPositionLoop, if_pos hu, if_pos hid] at h
        cases hrec : broadcastPositionLoop cid payload seq tl with
        | ok tailSends =>
          rw [hrec] at h
          simp only [DecodeResult.ok.injEq] at h
          subst h
          intro t ht
          rcases List.mem_cons.mp ht with rfl | ht
          · exact getD1_serialize_new _ _ _ _
          · exact ih tailSends hrec t ht
        | panic => rw [hrec] at h; cases h
        | fail => rw [hrec] at h; cases h
      · simp only [broadcastPositionLoop, if_pos hu, if_neg hid] at h
        exact ih sends h
    · simp only [broadcastPositionLoop, if_neg hu] at h
      cases h

/-- C10: every server-originated datagram is built via `GamePacket::new`,
which fixes the version field to `1`; consequently byte 1 (the version byte)
of every datagram emitted by the ConnectionInit handler (roster reply and
PlayerJoin notices), the PositionUpdate forwarder, the Inactivity Reaper's
PlayerLeft broadcast, and the Liveness Prober's heartbeat probes is `1`,
regardless of the version byte received from clients. -/
theorem server_packets_version_one :
    (∀ t s pl cid, (GamePacket.new t s pl cid).version = 1) ∧
    (∀ pkt addr newId now st,
      ∀ snd ∈ (GameServer.handle_connection_init pkt addr newId now st).2,
        snd.bytes.getD 1 0 = 1) ∧
    (∀ pkt addr st out, GameServer.handle_position_update pkt addr st = .ok out →
      ∀ snd ∈ out.2, snd.bytes.getD 1 0 = 1) ∧
    (∀ (st : GameState) (now : Nat) (sendOk : String → List Nat → Bool),
      ∀ snd ∈ (st.cleanup_inactive_players now sendOk).1,
        snd.bytes.getD 1 0 = 1) ∧
    (∀ (st : GameState) (parses : String → Bool) (sendOk : String → List Nat → Bool),
      ∀ snd ∈ (HeartbeatManager.send_heartbeats st parses sendOk).1,
        snd.bytes.getD 1 0 = 1) := by
  refine ⟨fun _ _ _ _ => rfl, ?_, ?_, ?_, ?_⟩
  · intro pkt addr newId now st snd hmem
    simp only [GameServer.handle_connection_init, List.mem_cons] at hmem
    rcases hmem with rfl | hmem
    · exact getD1_serialize_new _ _ _ _
    · obtain ⟨kv, _, hkv⟩ := List.mem_filterMap.mp hmem
      by_cases hid : newId ≠ kv.2.id
      · rw [if_pos hid] at hkv
        cases hkv
        exact getD1_serialize_new _ _ _ _
      · rw [if_neg hid] at hkv
        cases hkv
  · intro pkt addr st out h snd hmem
    unfold GameServer.handle_position_update at h
    cases hnew : PositionGamePacket.new pkt with
    | panic => rw [hnew] at h; cases h
    | fail => rw [hnew] at h; cases h
    | ok p =>
      rw [hnew] at h
      dsimp only at h
      cases hbr : broadcastPositionLoop p.client_id
          ((PlayerPosition.new p.client_id p.position).serialize) p.seq_num
          (st.update_player_position addr p.position).players with
      | ok sends =>
        rw [hbr] at h
        dsimp only at h
        cases h
        exact broadcastPositionLoop_bytes_version _ _ _ _ sends hbr snd hmem
      | panic => rw [hbr] at h; cases h
      | fail => rw [hbr] at h; cases h
  · intro st now sendOk snd hmem
    unfold GameState.cleanup_inactive_players at hmem
    by_cases hr : (notifyAll sendOk st.players (st.players.filter fun kv =>
        decide (PLAYER_TIMEOUT_SECS < now - kv.2.heartbeat))).2 = true
    · rw [if_pos hr] at hmem
      exact notifyAll_bytes_version sendOk st.players _ snd hmem
    · rw [if_neg hr] at hmem
      exact notifyAll_bytes_version sendOk st.players _ snd hmem
  · intro st parses sendOk snd hmem
    exact sendHeartbeatsLoop_bytes_version sendOk parses st.players snd hmem

/-- C10 witness: the heartbeat probe sent to a concrete one-player registry
carries version byte `1`. -/
theorem server_packets_version_one_witness :
    (⟨"a:1", (GamePacket.new .Heartbeat 0 []
      (List.replicate 18 0x61)).serialize⟩ : SendRec).bytes.getD 1 0 = 1 :=
  server_packets_version_one.2.2.2.2
    ⟨[("a:1", ⟨List.replicate 18 0x61, 0, ⟨0, 0⟩, 0⟩)], 1920, 1080⟩
    (fun _ => true) (fun _ _ => true) _ (by decide)

/-- With unique registry keys, a key determines its player record. -/
theorem keys_nodup_val_eq : ∀ (l : List (String × Player)),
    (l.map Prod.fst).Nodup → ∀ a p p', (a, p) ∈ l → (a, p') ∈ l → p = p' := by
  intro l
  induction l with
  | nil => intro _ a p p' h1; cases h1
  | cons hd tl ih =>
    intro hnod a p p' h1 h2
    obtain ⟨k, v⟩ := hd
    simp only [List.map_cons, List.nodup_cons] at hnod
    rcases List.mem_cons.mp h1 with he1 | h1
    · rcases List.mem_cons.mp h2 with he2 | h2
      · rw [Prod.mk.injEq] at he1 he2
        exact he1.2.trans he2.2.symm
      · exfalso
        rw [Prod.mk.injEq] at he1
        exact hnod.1 (he1.1 ▸ List.mem_map_of_mem Prod.fst h2)
    · rcases List.mem_cons.mp h2 with he2 | h2
      · exfalso
        rw [Prod.mk.injEq] at he2
        exact hnod.1 (he2.1 ▸ List.mem_map_of_mem Prod.fst h1)
      · exact ih hnod.2 a p p' h1 h2

/-- `update_player_position` does not change the registry's key list. -/
theorem update_player_position_keys (st : GameState) (a : String) (pos : Position) :
    (st.update_player_position a pos).players.map Prod.fst = st.players.map Prod.fst := by
  unfold GameState.update_player_position
  rw [List.map_map]
  apply List.map_congr_left
  intro kv _
  by_cases h : kv.1 = a <;> simp [h]

/-- When the claimed client id is valid UTF-8, the position fan-out loop
succeeds and sends exactly to the entries whose player id differs from it. -/
theorem broadcastPositionLoop_ok (cid payload : List Nat) (seq : Nat)
    (hu : validUtf8 cid = true) :
    ∀ l : List (String × Player),
      broadcastPositionLoop cid payload seq l =
        .ok (l.filterMap fun kv => if kv.2.id ≠ cid then
          some (⟨kv.1, (GamePacket.new .PositionUpdate seq payload
            kv.2.id).serialize⟩ : SendRec) else none) := by
  intro l
  induction l with
  | nil => rfl
  | cons hd tl ih =>
    obtain ⟨player_id, player⟩ := hd
    by_cases hid : player.id ≠ cid
    · simp only [broadcastPositionLoop, if_pos hu, if_pos hid, ih, List.filterMap_cons]
    · simp only [broadcastPositionLoop, if_pos hu, if_neg hid, ih, List.filterMap_cons]

/-- C8: PositionUpdate handling.  Under an 8-byte-or-longer payload, a valid
UTF-8 claimed client id, and unique registry keys: the entry keyed by the
transport source address has its position set to the decoded payload
position (`pos`), a PositionUpdate packet carrying that position — with the
recipient's id in the `client_id` header field and the recipient's registry
address as destination — is sent to every registered player whose id differs
from the claimed id, every send goes to such a player, and no datagram is
addressed to a player whose id equals the claimed id (so nothing is echoed
to the sender when it claims its own id). -/
theorem position_update_dispatch (pkt : GamePacket) (addr : String) (st : GameState)
    (h8 : 8 ≤ pkt.payload.length) (hu : validUtf8 pkt.client_id = true)
    (hkeys : (st.players.map Prod.fst).Nodup) :
    ∃ (pos : Position) (sends : List SendRec),
      PositionGamePacket.new pkt =
        .ok ⟨pkt.msg_type, pkt.version, pkt.client_id, pkt.seq_num, pos⟩ ∧
      GameServer.handle_position_update pkt addr st =
        .ok (st.update_player_position addr pos, sends) ∧
      (∀ a p, (a, p) ∈ st.players → a = addr →
        (a, { p with position := pos }) ∈ (st.update_player_position addr pos).players) ∧
      (∀ a p, (a, p) ∈ (st.update_player_position addr pos).players →
        p.id ≠ pkt.client_id →
        (⟨a, (GamePacket.new .PositionUpdate pkt.seq_num
          ((PlayerPosition.new pkt.client_id pos).serialize) p.id).serialize⟩ : SendRec)
          ∈ sends) ∧
      (∀ snd ∈ sends, ∃ a p, (a, p) ∈ (st.update_player_position addr pos).players ∧
        p.id ≠ pkt.client_id ∧ snd.dest = a ∧
        snd.bytes = (GamePacket.new .PositionUpdate pkt.seq_num
          ((PlayerPosition.new pkt.client_id pos).serialize) p.id).serialize) ∧
      (∀ a p, (a, p) ∈ (st.update_player_position addr pos).players →
        p.id = pkt.client_id → ∀ snd ∈ sends, snd.dest ≠ a) := by
  have hnew : PositionGamePacket.new pkt =
      .ok ⟨pkt.msg_type, pkt.version, pkt.client_id, pkt.seq_num,
        ⟨u32FromBeBytes (pkt.payload.getD 3 0) (pkt.payload.getD 2 0)
          (pkt.payload.getD 1 0) (pkt.payload.getD 0 0),
         u32FromBeBytes (pkt.payload.getD 7 0) (pkt.payload.getD 6 0)
          (pkt.payload.getD 5 0) (pkt.payload.getD 4 0)⟩⟩ := by
    unfold PositionGamePacket.new
    rw [if_neg (by omega)]
  set pos : Position :=
    ⟨u32FromBeBytes (pkt.payload.getD 3 0) (pkt.payload.getD 2 0)
      (pkt.payload.getD 1 0) (pkt.payload.getD 0 0),
     u32FromBeBytes (pkt.payload.getD 7 0) (pkt.payload.getD 6 0)
      (pkt.payload.getD 5 0) (pkt.payload.getD 4 0)⟩ with hpos
  set sends : List SendRec :=
    (st.update_player_position addr pos).players.filterMap fun kv =>
      if kv.2.id ≠ pkt.client_id then
        some (⟨kv.1, (GamePacket.new .PositionUpdate pkt.seq_num
          ((PlayerPosition.new pkt.client_id pos).serialize) kv.2.id).serialize⟩ : SendRec)
      else none with hsends
  have hkeys2 : ((st.update_player_position addr pos).players.map Prod.fst).Nodup := by
    rw [update_player_position_keys]; exact hkeys
  refine ⟨pos, sends, hnew, ?_, ?_, ?_, ?_, ?_⟩
  · unfold GameServer.handle_position_update
    rw [hnew]
    dsimp only
    rw [broadcastPositionLoop_ok pkt.client_id _ pkt.seq_num hu]
  · intro a p hmem ha
    subst ha
    have := List.mem_map_of_mem (fun kv : String × Player =>
      if kv.1 = a then (kv.1, { kv.2 with position := pos }) else kv) hmem
    simpa [GameState.update_player_position] using this
  · intro a p hmem hid
    rw [hsends]
    exact List.mem_filterMap.mpr ⟨(a, p), hmem, by rw [if_pos hid]⟩
  · intro snd hmem
    rw [hsends] at hmem
    obtain ⟨kv, hkv, hout⟩ := List.mem_filterMap.mp hmem
    by_cases hid : kv.2.id ≠ pkt.client_id
    · rw [if_pos hid] at hout
      cases hout
      exact ⟨kv.1, kv.2, hkv, hid, rfl, rfl⟩
    · rw [if_neg hid] at hout
      cases hout
  · intro a p hmem hid snd hsnd hdest
    rw [hsends] at hsnd
    obtain ⟨kv, hkv, hout⟩ := List.mem_filterMap.mp hsnd
    by_cases hid2 : kv.2.id ≠ pkt.client_id
    · rw [if_pos hid2] at hout
      cases hout
      have : kv.1 = a := hdest
      subst this
      have := keys_nodup_val_eq _ hkeys2 kv.1 p kv.2 hmem hkv
      exact hid2 (this ▸ hid)
    · rw [if_neg hid2] at hout
      cases hout

/-- C8 witness: a two-player registry (sender at `s:1`, one other player at
`o:2`), an inbound PositionUpdate from `s:1` claiming the sender's own id. -/
theorem position_update_dispatch_witness :
    let pkt : GamePacket :=
      ⟨.PositionUpdate, 1, List.replicate 18 0x61, 9, [0x44, 0x16, 0, 0, 0x44, 0x2F, 0, 0]⟩
    let st : GameState :=
      ⟨[("s:1", ⟨List.replicate 18 0x61, 0, ⟨1, 2⟩, 0⟩),
        ("o:2", ⟨List.replicate 18 0x62, 0, ⟨3, 4⟩, 0⟩)], 1920, 1080⟩
    ∃ (pos : Position) (sends : List SendRec),
      PositionGamePacket.new pkt =
        .ok ⟨pkt.msg_type, pkt.version, pkt.client_id, pkt.seq_num, pos⟩ ∧
      GameServer.handle_position_update pkt "s:1" st =
        .ok (st.update_player_position "s:1" pos, sends) ∧
      (∀ a p, (a, p) ∈ st.players → a = "s:1" →
        (a, { p with position := pos }) ∈ (st.update_player_position "s:1" pos).players) ∧
      (∀ a p, (a, p) ∈ (st.update_player_position "s:1" pos).players →
        p.id ≠ pkt.client_id →
        (⟨a, (GamePacket.new .PositionUpdate pkt.seq_num
          ((PlayerPosition.new pkt.client_id pos).serialize) p.id).serialize⟩ : SendRec)
          ∈ sends) ∧
      (∀ snd ∈ sends, ∃ a p, (a, p) ∈ (st.update_player_position "s:1" pos).players ∧
        p.id ≠ pkt.client_id ∧ snd.dest = a ∧
        snd.bytes = (GamePacket.new .PositionUpdate pkt.seq_num
          ((PlayerPosition.new pkt.client_id pos).serialize) p.id).serialize) ∧
      (∀ a p, (a, p) ∈ (st.update_player_position "s:1" pos).players →
        p.id = pkt.client_id → ∀ snd ∈ sends, snd.dest ≠ a) :=
  position_update_dispatch _ "s:1" _ (by decide) (by decide) (by decide)

theorem PlayerLeft_serialize_new (x : List Nat) : (PlayerLeft.new x).serialize = x := rfl

/-- When every send succeeds, the Reaper's inner loop sends one PlayerLeft
packet to each registry entry other than the departed one, in order. -/
theorem notifyLoop_all_ok (sendOk : String → List Nat → Bool)
    (hok : ∀ a b, sendOk a b = true) (payload : List Nat) (addr : String) :
    ∀ l : List (String × Player),
      notifyLoop sendOk payload addr l =
        (((l.filter fun kv => kv.1 ≠ addr).map fun kv =>
          (⟨kv.1, (GamePacket.new .PlayerLeft 0 payload kv.2.id).serialize⟩ : SendRec)),
         true) := by
  intro l
  induction l with
  | nil => rfl
  | cons hd tl ih =>
    obtain ⟨ta, p⟩ := hd
    by_cases hta : ta ≠ addr
    · simp [notifyLoop, hta, hok, ih, List.filter_cons]
    · simp [notifyLoop, hta, ih, List.filter_cons]

/-- When every send succeeds, the Reaper's notification phase produces one
block of PlayerLeft sends per expired entry, concatenated in order. -/
theorem notifyAll_all_ok (sendOk : String → List Nat → Bool)
    (hok : ∀ a b, sendOk a b = true) (players : List (String × Player)) :
    ∀ l : List (String × Player),
      notifyAll sendOk players l =
        (((l.map fun e => (players.filter fun kv => kv.1 ≠ e.1).map fun kv =>
          (⟨kv.1, (GamePacket.new .PlayerLeft 0 e.2.id kv.2.id).serialize⟩ : SendRec)).flatten),
         true) := by
  intro l
  induction l with
  | nil => rfl
  | cons hd tl ih =>
    obtain ⟨addr, player⟩ := hd
    simp only [notifyAll, notifyLoop_all_ok sendOk hok _ addr players,
      PlayerLeft_serialize_new]
    simp [ih]

/-- When every send succeeds, one Reaper pass notifies each pre-removal
registry entry once per expired player and then retains exactly the entries
whose heartbeat is within the timeout. -/
theorem cleanup_all_ok (st : GameState) (now : Nat) (sendOk : String → List Nat → Bool)
    (hok : ∀ a b, sendOk a b = true) :
    st.cleanup_inactive_players now sendOk =
      ((((st.players.filter fun kv => PLAYER_TIMEOUT_SECS < now - kv.2.heartbeat).map fun e =>
          (st.players.filter fun kv => kv.1 ≠ e.1).map fun kv =>
            (⟨kv.1, (GamePacket.new .PlayerLeft 0 e.2.id kv.2.id).serialize⟩ : SendRec)).flatten),
       { st with players := st.players.filter fun kv =>
           now - kv.2.heartbeat ≤ PLAYER_TIMEOUT_SECS }, true) := by
  unfold GameState.cleanup_inactive_players
  dsimp only
  rw [notifyAll_all_ok sendOk hok st.players]
  simp

theorem countP_key_absent : ∀ (l : List (String × Player)) (a : String),
    a ∉ l.map Prod.fst → ∀ Q : String × Player → Bool,
    (l.countP fun kv => decide (kv.1 = a) && Q kv) = 0 := by
  intro l
  induction l with
  | nil => intro a _ Q; rfl
  | cons hd tl ih =>
    intro a h Q
    simp only [List.map_cons, List.mem_cons] at h
    push_neg at h
    rw [List.countP_cons, ih a h.2 Q]
    have hfalse : decide (hd.1 = a) = false := decide_eq_false (fun he => h.1 he.symm)
    rw [hfalse, Bool.false_and]
    rfl

/-- With unique keys, counting registry entries that match a fixed key `ar`
and a further test collapses to testing the unique entry at `ar`. -/
theorem countP_key : ∀ (l : List (String × Player)),
    (l.map Prod.fst).Nodup → ∀ (ar : String) (rp : Player), (ar, rp) ∈ l →
    ∀ Q : String × Player → Bool,
    (l.countP fun kv => decide (kv.1 = ar) && Q kv) = if Q (ar, rp) then 1 else 0 := by
  intro l
  induction l with
  | nil => intro _ ar rp h; cases h
  | cons hd tl ih =>
    intro hnod ar rp hmem Q
    simp only [List.map_cons, List.nodup_cons] at hnod
    rw [List.countP_cons]
    rcases List.mem_cons.mp hmem with he | hmem'
    · subst he
      rw [countP_key_absent tl ar hnod.1 Q]
      simp
    · have hne : hd.1 ≠ ar := by
        intro he
        apply hnod.1
        rw [he]
        exact List.mem_map_of_mem Prod.fst hmem'
      rw [ih hnod.2 ar rp hmem' Q, decide_eq_false hne, Bool.false_and]
      simp

/-- Two serialized PlayerLeft packets with the same recipient id agree only
when their payload (departing-player) ids agree. -/
theorem playerLeft_bytes_inj (id1 id2 rid : List Nat)
    (h : (GamePacket.new .PlayerLeft 0 id1 rid).serialize =
         (GamePacket.new .PlayerLeft 0 id2 rid).serialize) : id1 = id2 := by
  have hb : u32ToBeBytes 0 = [0, 0, 0, 0] := rfl
  simp only [GamePacket.new, GamePacket.serialize, MessageType.toByte, hb,
    List.cons_append, List.nil_append, List.cons.injEq, true_and] at h
  have h2 := List.append_cancel_left h
  simpa using h2

/-- Summing an indicator-like function over a duplicate-free list containing
its distinguished element yields one. -/
theorem sum_map_indicator {α : Type} [DecidableEq α] (x : α) :
    ∀ (l : List α), l.Nodup → x ∈ l →
    ∀ f : α → Nat, (∀ y ∈ l, f y = if y = x then 1 else 0) → (l.map f).sum = 1 := by
  intro l
  induction l with
  | nil => intro _ h; cases h
  | cons hd tl ih =>
    intro hnod hx f hf
    simp only [List.map_cons, List.sum_cons]
    rcases List.mem_cons.mp hx with he | hx'
    · subst he
      rw [hf x (List.mem_cons_self x tl), if_pos rfl]
      have hzero : (tl.map f).sum = 0 := by
        apply List.sum_eq_zero
        intro z hz
        obtain ⟨y, hy, rfl⟩ := List.mem_map.mp hz
        rw [hf y (List.mem_cons_of_mem x hy), if_neg]
        intro he2
        subst he2
        exact (List.nodup_cons.mp hnod).1 hy
      rw [hzero]
    · have hd_ne : hd ≠ x := by
        intro he2
        exact (List.nodup_cons.mp hnod).1 (he2 ▸ hx')
      rw [hf hd (List.mem_cons_self hd tl), if_neg hd_ne,
        ih (List.nodup_cons.mp hnod).2 hx' f (fun y hy => hf y (List.mem_cons_of_mem hd hy))]

/-- C7: Reaper pass postcondition, proved when every send succeeds (on a send
failure the pass aborts — see the C4 analysis) and under the registry
invariants of unique keys and unique player ids.  The pass completes; an
entry remains in the registry if and only if it was present and `now` minus
its heartbeat is at most `PLAYER_TIMEOUT_SECS`; and for every expired player
`(ae, ep)` and EVERY other player `(ar, rp)` of the pre-removal snapshot —
active or itself expired-but-not-yet-removed this pass, any entry whose key
differs from `ae` — the pass's send trace (taken before any removal happens)
contains exactly one datagram to `ar` carrying the PlayerLeft notice for
`ep`.  In particular every remaining player receives exactly one such notice
per expired player, since with unique keys a remaining player's key differs
from every expired player's key. -/
theorem reaper_pass_postcondition (st : GameState) (now : Nat)
    (sendOk : String → List Nat → Bool)
    (hok : ∀ a b, sendOk a b = true)
    (hkeys : (st.players.map Prod.fst).Nodup)
    (hids : (st.players.map fun kv => kv.2.id).Nodup) :
    (st.cleanup_inactive_players now sendOk).2.2 = true ∧
    (∀ e : String × Player, e ∈ (st.cleanup_inactive_players now sendOk).2.1.players ↔
      (e ∈ st.players ∧ now - e.2.heartbeat ≤ PLAYER_TIMEOUT_SECS)) ∧
    (∀ ar rp, (ar, rp) ∈ st.players →
      ∀ ae ep, (ae, ep) ∈ st.players → PLAYER_TIMEOUT_SECS < now - ep.heartbeat →
        ar ≠ ae →
        ((st.cleanup_inactive_players now sendOk).1.countP fun s =>
          decide (s.dest = ar) && decide (s.bytes =
            (GamePacket.new .PlayerLeft 0 ep.id rp.id).serialize)) = 1) := by
  rw [cleanup_all_ok st now sendOk hok]
  refine ⟨rfl, ?_, ?_⟩
  · intro e
    simp [List.mem_filter]
  · intro ar rp hr ae ep he hexp hne
    rw [List.countP_flatten, List.map_map]
    have hnodup : (st.players.filter fun kv =>
        PLAYER_TIMEOUT_SECS < now - kv.2.heartbeat).Nodup :=
      (List.Nodup.of_map _ hkeys).filter _
    have hmem : (ae, ep) ∈ st.players.filter fun kv =>
        PLAYER_TIMEOUT_SECS < now - kv.2.heartbeat :=
      List.mem_filter.mpr ⟨he, by simpa using hexp⟩
    apply sum_map_indicator (ae, ep) _ hnodup hmem
    intro e hemem
    have heP := List.mem_filter.mp hemem
    simp only [Function.comp_apply]
    rw [List.countP_map, List.countP_filter]
    simp only [Function.comp_apply]
    dsimp only
    have hpred : (fun kv : String × Player =>
        (decide (kv.1 = ar) &&
         decide ((GamePacket.new .PlayerLeft 0 e.2.id kv.2.id).serialize =
           (GamePacket.new .PlayerLeft 0 ep.id rp.id).serialize)) &&
        decide (kv.1 ≠ e.1)) =
        (fun kv : String × Player => decide (kv.1 = ar) &&
          (decide ((GamePacket.new .PlayerLeft 0 e.2.id kv.2.id).serialize =
            (GamePacket.new .PlayerLeft 0 ep.id rp.id).serialize) &&
           decide (kv.1 ≠ e.1))) := by
      funext kv
      rw [Bool.and_assoc]
    rw [hpred, countP_key st.players hkeys ar rp hr]
    by_cases hcase : e = (ae, ep)
    · subst hcase
      simp [hne]
    · have hne_id : e.2.id ≠ ep.id := by
        intro hidq
        exact hcase (List.inj_on_of_nodup_map hids heP.1 he hidq)
      have hbne : (GamePacket.new .PlayerLeft 0 e.2.id rp.id).serialize ≠
          (GamePacket.new .PlayerLeft 0 ep.id rp.id).serialize := by
        intro hbe
        exact hne_id (playerLeft_bytes_inj e.2.id ep.id rp.id hbe)
      simp [hbne, hcase]

/-- C7 witness: a two-player registry with one expired player (`x:1`, last
heartbeat 0) and one active player (`y:2`, last heartbeat 95) at `now = 100`
with an always-succeeding transport. -/
theorem reaper_pass_postcondition_witness :
    let st : GameState := ⟨[("x:1", ⟨List.replicate 18 0x61, 0, ⟨0, 0⟩, 0⟩),
                           ("y:2", ⟨List.replicate 18 0x62, 0, ⟨0, 0⟩, 95⟩)], 1920, 1080⟩
    (st.cleanup_inactive_players 100 (fun _ _ => true)).2.2 = true ∧
    (∀ e : String × Player, e ∈ (st.cleanup_inactive_players 100 (fun _ _ => true)).2.1.players ↔
      (e ∈ st.players ∧ 100 - e.2.heartbeat ≤ PLAYER_TIMEOUT_SECS)) ∧
    (∀ ar rp, (ar, rp) ∈ st.players →
      ∀ ae ep, (ae, ep) ∈ st.players → PLAYER_TIMEOUT_SECS < 100 - ep.heartbeat →
        ar ≠ ae →
        ((st.cleanup_inactive_players 100 (fun _ _ => true)).1.countP fun s =>
          decide (s.dest = ar) && decide (s.bytes =
            (GamePacket.new .PlayerLeft 0 ep.id rp.id).serialize)) = 1) :=
  reaper_pass_postcondition _ 100 (fun _ _ => true) (fun _ _ => rfl)
    (by decide) (by decide)

end ServerDot
